import Mathlib

/-!
Verification of the Nakamoto block download scheduler
(`stackslib/src/net/download/nakamoto.rs`).

This file gives a shallow embedding of the data model and the operations of
the confirmed (`NakamotoTenureDownloader`) and unconfirmed
(`NakamotoUnconfirmedTenureDownloader`) tenure downloaders, of
`TenureStartEnd::from_inventory`, and of the top-level
`NakamotoDownloadStateMachine::run` error plumbing, and proves theorems about
them.  Identifiers are 20- and 32-byte opaque hashes in the source; they are
modelled as natural numbers.  Rust `&mut self` methods are modelled as pure
functions returning the updated structure together with the `Result` value.
-/

set_option autoImplicit false

namespace Stacks

/-- Modelled from the spec: `threshold_signature.verify(agg_key, hash)` is an
opaque boolean primitive supplied by the block type (wsts Schnorr verification,
outside the embedded sources).  We model an idealised scheme in which a
signature verifies against exactly the aggregate key it encodes; the hashed
message argument does not influence the model. -/
def schnorrVerify (sig : Nat) (key : Nat) : Bool :=
  sig == key

/-- Tenure-change payload carried by a tenure-start block.  Only the two fields
consulted by the downloader are modelled (`prev_tenure_consensus_hash`,
`previous_tenure_blocks`). -/
structure TenureChangePayload where
  prev_tenure_consensus_hash : Nat
  previous_tenure_blocks : Nat
deriving DecidableEq, Repr

/-- Nakamoto block header: the fields read by the downloader. -/
structure NakamotoBlockHeader where
  parent_block_id : Nat
  chain_length : Nat
  consensus_hash : Nat
  signer_signature : Nat
deriving DecidableEq, Repr

/-- Modelled from the spec: `header.block_id()` is an opaque 32-byte
identifier computed by hashing the header (outside the embedded sources).  We
model the hash as an injective pairing of the header fields. -/
def NakamotoBlockHeader.block_id (h : NakamotoBlockHeader) : Nat :=
  Nat.pair h.parent_block_id
    (Nat.pair h.chain_length (Nat.pair h.consensus_hash h.signer_signature))

/-- Nakamoto block.  The two structural validation primitives provided by the
block type (`is_wellformed_tenure_start_block`, which returns `Result<bool>`
in the source, and `try_get_tenure_change_payload`) are modelled as fields:
`wellformed_tenure_start = none` models the `Err(_)` outcome. -/
structure NakamotoBlock where
  header : NakamotoBlockHeader
  wellformed_tenure_start : Option Bool
  tenure_change : Option TenureChangePayload
deriving DecidableEq, Repr

def NakamotoBlock.block_id (b : NakamotoBlock) : Nat :=
  b.header.block_id

/-- The `net::Error` variants reachable from the embedded code paths.
`DecodeError` stands for the HTTP decode failures and `Fatal` for the
`.expect(..)` panics on reward-cycle conversion. -/
inductive NetError where
  | InvalidState
  | InvalidMessage
  | PeerNotConnected
  | DBNotFound
  | DecodeError
  | Fatal
deriving DecidableEq, Repr

/-- Download states for an historic tenure (`NakamotoTenureDownloadState`). -/
inductive NakamotoTenureDownloadState where
  | GetTenureStartBlock (block_id : Nat)
  | WaitForTenureEndBlock (block_id : Nat)
  | GetTenureEndBlock (block_id : Nat)
  | GetTenureBlocks (block_id : Nat)
  | Done
deriving DecidableEq, Repr

/-- Download state machine for an historic tenure (`NakamotoTenureDownloader`). -/
structure NakamotoTenureDownloader where
  tenure_id_consensus_hash : Nat
  tenure_start_block_id : Nat
  tenure_end_block_id : Nat
  naddr : Nat
  start_aggregate_public_key : Nat
  end_aggregate_public_key : Nat
  idle : Bool
  state : NakamotoTenureDownloadState
  tenure_start_block : Option NakamotoBlock
  tenure_end_block : Option NakamotoBlock
  tenure_end_header : Option (NakamotoBlockHeader × TenureChangePayload)
  tenure_blocks : Option (List NakamotoBlock)
deriving DecidableEq, Repr

namespace NakamotoTenureDownloader

/-- `NakamotoTenureDownloader::new`. -/
def new (tenure_id_consensus_hash tenure_start_block_id tenure_end_block_id
    naddr start_aggregate_public_key end_aggregate_public_key : Nat) :
    NakamotoTenureDownloader :=
  { tenure_id_consensus_hash := tenure_id_consensus_hash
    tenure_start_block_id := tenure_start_block_id
    tenure_end_block_id := tenure_end_block_id
    naddr := naddr
    start_aggregate_public_key := start_aggregate_public_key
    end_aggregate_public_key := end_aggregate_public_key
    idle := false
    state := .GetTenureStartBlock tenure_start_block_id
    tenure_start_block := none
    tenure_end_header := none
    tenure_end_block := none
    tenure_blocks := none }

/-- `NakamotoTenureDownloader::tenure_length`. -/
def tenure_length (dl : NakamotoTenureDownloader) : Option Nat :=
  dl.tenure_end_header.map (fun p => p.2.previous_tenure_blocks)

/-- The per-block validation loop of `try_accept_tenure_blocks` (source lines
377-417): parent-linkage against the running expected id, signer signature
against the start aggregate key, and the running count bound against the
tenure length. -/
def acceptBlocksLoop (key collectedLen tlen : Nat) :
    Nat → Nat → List NakamotoBlock → Except NetError Unit
  | _, _, [] => .ok ()
  | expected, count, b :: rest =>
    if b.block_id ≠ expected then
      .error .InvalidMessage
    else if ¬ schnorrVerify b.header.signer_signature key then
      .error .InvalidMessage
    else if collectedLen + (count + 1) > tlen then
      .error .InvalidMessage
    else
      acceptBlocksLoop key collectedLen tlen b.header.parent_block_id (count + 1) rest

/-- `NakamotoTenureDownloader::try_accept_tenure_blocks`. -/
def try_accept_tenure_blocks (dl : NakamotoTenureDownloader)
    (blocks : List NakamotoBlock) :
    NakamotoTenureDownloader × Except NetError (Option (List NakamotoBlock)) :=
  match dl.state with
  | .GetTenureBlocks block_cursor =>
    if blocks.isEmpty then
      (dl, .ok none)
    else
      match acceptBlocksLoop dl.start_aggregate_public_key
          (dl.tenure_blocks.getD []).length (dl.tenure_length.getD 0)
          block_cursor 0 blocks with
      | .error e => (dl, .error e)
      | .ok _ =>
        let newBlocks := dl.tenure_blocks.getD [] ++ blocks
        let dl1 := { dl with tenure_blocks := some newBlocks }
        match newBlocks.getLast? with
        | none => (dl1, .error .InvalidState)
        | some earliest =>
          match dl1.tenure_start_block with
          | none => (dl1, .error .InvalidState)
          | some tenure_start_block =>
            if earliest.block_id = tenure_start_block.block_id then
              ({ dl1 with state := .Done, tenure_blocks := none },
                .ok (some newBlocks.reverse))
            else
              ({ dl1 with
                  state := .GetTenureBlocks earliest.header.parent_block_id },
                .ok none)
  | _ => (dl, .error .InvalidState)

/-- Whether the state is one of the two receive-end-block states
(`WaitForTenureEndBlock` or `GetTenureEndBlock`), mirroring the pair of
`matches!` tests at the top of `try_accept_tenure_end_block`. -/
def isEndBlockRecvState : NakamotoTenureDownloadState → Bool
  | .WaitForTenureEndBlock _ => true
  | .GetTenureEndBlock _ => true
  | _ => false

/-- `NakamotoTenureDownloader::try_accept_tenure_end_block`. -/
def try_accept_tenure_end_block (dl : NakamotoTenureDownloader)
    (tenure_end_block : NakamotoBlock) :
    NakamotoTenureDownloader × Except NetError Unit :=
  if ¬ isEndBlockRecvState dl.state then
    (dl, .error .InvalidState)
  else
    match dl.tenure_start_block with
    | none => (dl, .error .InvalidState)
    | some tenure_start_block =>
      if dl.tenure_end_block_id ≠ tenure_end_block.block_id then
        (dl, .error .InvalidMessage)
      else if ¬ schnorrVerify tenure_end_block.header.signer_signature
          dl.end_aggregate_public_key then
        (dl, .error .InvalidMessage)
      else
        match tenure_end_block.wellformed_tenure_start with
        | none => (dl, .error .InvalidMessage)
        | some false => (dl, .error .InvalidMessage)
        | some true =>
          match tenure_end_block.tenure_change with
          | none => (dl, .error .InvalidMessage)
          | some tc_payload =>
            if tc_payload.prev_tenure_consensus_hash ≠
                tenure_start_block.header.consensus_hash then
              (dl, .error .InvalidMessage)
            else
              ({ dl with
                  tenure_end_header := some (tenure_end_block.header, tc_payload)
                  state := .GetTenureBlocks tenure_end_block.header.parent_block_id },
                .ok ())

/-- `NakamotoTenureDownloader::try_accept_tenure_start_block`. -/
def try_accept_tenure_start_block (dl : NakamotoTenureDownloader)
    (tenure_start_block : NakamotoBlock) :
    NakamotoTenureDownloader × Except NetError Unit :=
  match dl.state with
  | .GetTenureStartBlock _ =>
    if dl.tenure_start_block_id ≠ tenure_start_block.block_id then
      (dl, .error .InvalidMessage)
    else if ¬ schnorrVerify tenure_start_block.header.signer_signature
        dl.start_aggregate_public_key then
      (dl, .error .InvalidMessage)
    else
      let dl1 := { dl with tenure_start_block := some tenure_start_block }
      match dl1.tenure_end_header with
      | some (hdr, _) =>
        ({ dl1 with state := .GetTenureBlocks hdr.parent_block_id }, .ok ())
      | none =>
        match dl1.tenure_end_block with
        | some tenure_end_block =>
          let dl2 := { dl1 with
              tenure_end_block := none
              state := .WaitForTenureEndBlock tenure_end_block.block_id }
          try_accept_tenure_end_block dl2 tenure_end_block
        | none =>
          ({ dl1 with state := .WaitForTenureEndBlock dl1.tenure_end_block_id },
            .ok ())
  | _ => (dl, .error .InvalidState)

/-- `NakamotoTenureDownloader::transition_to_fetch_end_block`. -/
def transition_to_fetch_end_block (dl : NakamotoTenureDownloader) :
    NakamotoTenureDownloader × Except NetError Unit :=
  match dl.state with
  | .WaitForTenureEndBlock end_block_id =>
    ({ dl with state := .GetTenureEndBlock end_block_id }, .ok ())
  | _ => (dl, .error .InvalidState)

end NakamotoTenureDownloader

/-- HTTP requests the downloader can build (`StacksHttpRequest` constructors
used by the download state machines; the peer host is a number). -/
inductive StacksHttpRequest where
  | GetNakamotoBlock (peerhost : Nat) (block_id : Nat)
  | GetNakamotoTenure (peerhost : Nat) (block_id : Nat) (stop : Option Nat)
  | GetNakamotoTenureInfo (peerhost : Nat)
deriving DecidableEq, Repr

namespace NakamotoTenureDownloader

/-- `NakamotoTenureDownloader::make_next_download_request`. -/
def make_next_download_request (dl : NakamotoTenureDownloader)
    (peerhost : Nat) : Except Unit (Option StacksHttpRequest) :=
  match dl.state with
  | .GetTenureStartBlock start_block_id =>
    .ok (some (.GetNakamotoBlock peerhost start_block_id))
  | .WaitForTenureEndBlock _ => .ok none
  | .GetTenureEndBlock end_block_id =>
    .ok (some (.GetNakamotoBlock peerhost end_block_id))
  | .GetTenureBlocks end_block_id =>
    .ok (some (.GetNakamotoTenure peerhost end_block_id none))
  | .Done => .error ()

end NakamotoTenureDownloader

/-- Environment snapshot of the peer facade consulted by
`send_next_download_request`: the `NeighborRPC`/`PeerNetwork` queries about the
downloader's own `naddr`, and the outcome of `neighbor_rpc.send_request`
(`none` = success, `some e` = the transport error it returns). -/
structure NeighborRPCEnv where
  has_inflight : Bool
  is_dead_or_broken : Bool
  peer_host : Option Nat
  send_err : Option NetError
deriving DecidableEq, Repr

namespace NakamotoTenureDownloader

/-- `NakamotoTenureDownloader::send_next_download_request`.  The third
component records the request handed to `neighbor_rpc.send_request`, if any
(`none` when nothing was sent to the peer). -/
def send_next_download_request (dl : NakamotoTenureDownloader)
    (env : NeighborRPCEnv) :
    NakamotoTenureDownloader × Except NetError (Option Bool) ×
      Option StacksHttpRequest :=
  if env.has_inflight then
    (dl, .ok (some true), none)
  else if env.is_dead_or_broken then
    (dl, .error .PeerNotConnected, none)
  else
    match env.peer_host with
    | none => (dl, .error .PeerNotConnected, none)
    | some peerhost =>
      match dl.make_next_download_request peerhost with
      | .ok none => (dl, .ok (some true), none)
      | .error _ => (dl, .ok (some false), none)
      | .ok (some request) =>
        match env.send_err with
        | some e => (dl, .error e, some request)
        | none => ({ dl with idle := false }, .ok (some true), some request)

end NakamotoTenureDownloader

/-- A received HTTP response, reduced to the decode results the downloaders
extract from it: `decode_nakamoto_block` and `decode_nakamoto_tenure`
(`none` models a decode failure). -/
structure StacksHttpResponse where
  nakamoto_block : Option NakamotoBlock
  nakamoto_tenure : Option (List NakamotoBlock)
deriving DecidableEq, Repr

namespace NakamotoTenureDownloader

/-- `NakamotoTenureDownloader::handle_next_download_response`. -/
def handle_next_download_response (dl : NakamotoTenureDownloader)
    (response : StacksHttpResponse) :
    NakamotoTenureDownloader × Except NetError (Option (List NakamotoBlock)) :=
  let dl0 := { dl with idle := true }
  match dl0.state with
  | .GetTenureStartBlock _ =>
    match response.nakamoto_block with
    | none => (dl0, .error .DecodeError)
    | some block =>
      match dl0.try_accept_tenure_start_block block with
      | (dl1, .error e) => (dl1, .error e)
      | (dl1, .ok _) => (dl1, .ok none)
  | .WaitForTenureEndBlock _ => (dl0, .error .InvalidState)
  | .GetTenureEndBlock _ =>
    match response.nakamoto_block with
    | none => (dl0, .error .DecodeError)
    | some block =>
      match dl0.try_accept_tenure_end_block block with
      | (dl1, .error e) => (dl1, .error e)
      | (dl1, .ok _) => (dl1, .ok none)
  | .GetTenureBlocks _ =>
    match response.nakamoto_tenure with
    | none => (dl0, .error .DecodeError)
    | some blocks => dl0.try_accept_tenure_blocks blocks
  | .Done => (dl0, .error .InvalidState)

end NakamotoTenureDownloader

/-- Download states for the unconfirmed tenure
(`NakamotoUnconfirmedDownloadState`). -/
inductive NakamotoUnconfirmedDownloadState where
  | GetTenureInfo
  | GetTenureStartBlock (block_id : Nat)
  | GetUnconfirmedTenureBlocks (block_id : Nat)
  | Done
deriving DecidableEq, Repr

/-- The tenure-tip descriptor returned by `GET /v3/tenures/info`
(`RPCGetTenureInfo`), restricted to the fields the downloader reads. -/
structure RPCGetTenureInfo where
  consensus_hash : Nat
  parent_consensus_hash : Nat
  tenure_start_block_id : Nat
  parent_tenure_start_block_id : Nat
  tip_block_id : Nat
  tip_height : Nat
deriving DecidableEq, Repr

/-- A sortition snapshot (`BlockSnapshot`), restricted to the fields the
downloader reads. -/
structure BlockSnapshot where
  block_height : Nat
  sortition_id : Nat
  consensus_hash : Nat
  winning_stacks_block_hash : Nat
deriving DecidableEq, Repr

/-- The sortition-DB facade used by `try_accept_tenure_info`.  The source's
fallible database reads are modelled as pure lookups (`none` = not found; I/O
errors of the external store are not modelled).  The source calls
`pox_constants.block_height_to_reward_cycle(..).expect(..)` and panics on
`None`; `block_height_to_reward_cycle` is modelled as the total function
obtained on the non-panicking inputs. -/
structure SortitionDB where
  get_block_snapshot_consensus : Nat → Option BlockSnapshot
  get_block_snapshot_by_height : Nat → Nat → Option BlockSnapshot
  first_block_height : Nat
  block_height_to_reward_cycle : Nat → Nat → Nat

/-- The chain-state facade used by the unconfirmed downloader: a pure lookup
of stored Nakamoto blocks (`none` = not found). -/
structure StacksChainState where
  get_nakamoto_block : Nat → Option NakamotoBlock

/-- `nakamoto_blocks_db().has_nakamoto_block(..)`, expressed through the same
lookup so that the two queries agree. -/
def StacksChainState.has_nakamoto_block (cs : StacksChainState) (id : Nat) :
    Bool :=
  (cs.get_nakamoto_block id).isSome

/-- Download state machine for the unconfirmed tenure
(`NakamotoUnconfirmedTenureDownloader`). -/
structure NakamotoUnconfirmedTenureDownloader where
  state : NakamotoUnconfirmedDownloadState
  naddr : Nat
  confirmed_aggregate_public_key : Option Nat
  unconfirmed_aggregate_public_key : Option Nat
  highest_processed_block_id : Option Nat
  highest_processed_block_height : Option Nat
  tenure_tip : Option RPCGetTenureInfo
  unconfirmed_tenure_start_block : Option NakamotoBlock
  unconfirmed_tenure_blocks : Option (List NakamotoBlock)
deriving DecidableEq, Repr

namespace NakamotoUnconfirmedTenureDownloader

/-- `NakamotoUnconfirmedTenureDownloader::new`. -/
def new (naddr : Nat) (highest_processed_block_id : Option Nat) :
    NakamotoUnconfirmedTenureDownloader :=
  { state := .GetTenureInfo
    naddr := naddr
    confirmed_aggregate_public_key := none
    unconfirmed_aggregate_public_key := none
    highest_processed_block_id := highest_processed_block_id
    highest_processed_block_height := none
    tenure_tip := none
    unconfirmed_tenure_start_block := none
    unconfirmed_tenure_blocks := none }

/-- The remainder of `try_accept_tenure_info` after the sortition checks:
the early-out on the highest processed block (source lines 752-777), the
aggregate-key recording and next-state selection (lines 779-841), and the
final `tenure_tip` store. -/
def tryAcceptTenureInfoTail (dl : NakamotoUnconfirmedTenureDownloader)
    (sortdb : SortitionDB) (chainstate : StacksChainState)
    (tenure_tip : RPCGetTenureInfo) (agg_pubkeys : Nat → Option (Option Nat))
    (tenure_sn parent_tenure_sn : BlockSnapshot) :
    NakamotoUnconfirmedTenureDownloader × Except NetError Unit :=
  let step1 : NakamotoUnconfirmedTenureDownloader ⊕
      (NakamotoUnconfirmedTenureDownloader × NetError) :=
    match dl.highest_processed_block_id with
    | none => .inl dl
    | some highest_processed_block_id =>
      match chainstate.get_nakamoto_block highest_processed_block_id with
      | none => .inr (dl, .DBNotFound)
      | some highest_processed_block =>
        let h := highest_processed_block.header.chain_length
        let dl1 := { dl with highest_processed_block_height := some h }
        if tenure_tip.tip_block_id = highest_processed_block_id ∨
            h > tenure_tip.tip_height then
          match chainstate.get_nakamoto_block
              tenure_tip.tenure_start_block_id with
          | none => .inr (dl1, .InvalidMessage)
          | some unconfirmed_tenure_start_block =>
            .inl { dl1 with
                unconfirmed_tenure_start_block :=
                  some unconfirmed_tenure_start_block
                state := .Done }
        else
          .inl dl1
  match step1 with
  | .inr (dl1, e) => (dl1, .error e)
  | .inl dl1 =>
    if dl1.state ≠ .Done then
      let tenure_rc := sortdb.block_height_to_reward_cycle
        sortdb.first_block_height tenure_sn.block_height
      let parent_tenure_rc := sortdb.block_height_to_reward_cycle
        sortdb.first_block_height parent_tenure_sn.block_height
      match agg_pubkeys parent_tenure_rc with
      | some (some confirmed_aggregate_public_key) =>
        match agg_pubkeys tenure_rc with
        | some (some unconfirmed_aggregate_public_key) =>
          if chainstate.has_nakamoto_block
              tenure_tip.tenure_start_block_id then
            match chainstate.get_nakamoto_block
                tenure_tip.tenure_start_block_id with
            | none => (dl1, .error .DBNotFound)
            | some unconfirmed_tenure_start_block =>
              ({ dl1 with
                  unconfirmed_tenure_start_block :=
                    some unconfirmed_tenure_start_block
                  state :=
                    .GetUnconfirmedTenureBlocks tenure_tip.tip_block_id
                  confirmed_aggregate_public_key :=
                    some confirmed_aggregate_public_key
                  unconfirmed_aggregate_public_key :=
                    some unconfirmed_aggregate_public_key
                  tenure_tip := some tenure_tip }, .ok ())
          else
            ({ dl1 with
                state :=
                  .GetTenureStartBlock tenure_tip.tenure_start_block_id
                confirmed_aggregate_public_key :=
                  some confirmed_aggregate_public_key
                unconfirmed_aggregate_public_key :=
                  some unconfirmed_aggregate_public_key
                tenure_tip := some tenure_tip }, .ok ())
        | _ => (dl1, .error .InvalidState)
      | _ => (dl1, .error .InvalidState)
    else
      ({ dl1 with tenure_tip := some tenure_tip }, .ok ())

/-- `NakamotoUnconfirmedTenureDownloader::try_accept_tenure_info` (source
lines 685-844).  `agg_pubkeys` models the `BTreeMap<u64, Option<Point>>`
lookup. -/
def try_accept_tenure_info (dl : NakamotoUnconfirmedTenureDownloader)
    (sortdb : SortitionDB) (sort_tip : BlockSnapshot)
    (chainstate : StacksChainState) (tenure_tip : RPCGetTenureInfo)
    (agg_pubkeys : Nat → Option (Option Nat)) :
    NakamotoUnconfirmedTenureDownloader × Except NetError Unit :=
  if dl.state ≠ .GetTenureInfo then
    (dl, .error .InvalidState)
  else if dl.tenure_tip.isSome then
    (dl, .error .InvalidState)
  else
    match sortdb.get_block_snapshot_consensus tenure_tip.consensus_hash with
    | none => (dl, .error .DBNotFound)
    | some tenure_sn =>
      match sortdb.get_block_snapshot_consensus
          tenure_tip.parent_consensus_hash with
      | none => (dl, .error .DBNotFound)
      | some parent_tenure_sn =>
        match sortdb.get_block_snapshot_by_height sort_tip.sortition_id
            tenure_sn.block_height with
        | none => (dl, .error .DBNotFound)
        | some ancestor_tenure_sn =>
          if ancestor_tenure_sn.sortition_id ≠ tenure_sn.sortition_id then
            (dl, .error .DBNotFound)
          else
            match sortdb.get_block_snapshot_by_height sort_tip.sortition_id
                parent_tenure_sn.block_height with
            | none => (dl, .error .DBNotFound)
            | some ancestor_parent_tenure_sn =>
              if ancestor_parent_tenure_sn.sortition_id ≠
                  parent_tenure_sn.sortition_id then
                (dl, .error .DBNotFound)
              else if tenure_sn.block_height ≤ parent_tenure_sn.block_height then
                (dl, .error .InvalidMessage)
              else if tenure_sn.winning_stacks_block_hash ≠
                  tenure_tip.parent_tenure_start_block_id then
                (dl, .error .InvalidMessage)
              else
                tryAcceptTenureInfoTail dl sortdb chainstate tenure_tip
                  agg_pubkeys tenure_sn parent_tenure_sn

end NakamotoUnconfirmedTenureDownloader

/-- The per-block validation loop of `try_accept_unconfirmed_tenure_blocks`
(source lines 934-1012).  Arguments mirror the loop state: `cnt` is the
`enumerate` index, `expected` the running expected block id, `total` the
length of the whole received list.  The result is the `at_tenure_start`
flag. -/
def acceptUnconfirmedLoop (key : Nat) (tip : RPCGetTenureInfo)
    (hpid hph : Option Nat) (total : Nat) :
    Nat → Nat → List NakamotoBlock → Except NetError Bool
  | _, _, [] => .ok false
  | cnt, expected, b :: rest =>
    if b.block_id ≠ expected then
      .error .InvalidMessage
    else if ¬ schnorrVerify b.header.signer_signature key then
      .error .InvalidMessage
    else
      match b.wellformed_tenure_start with
      | none => .error .InvalidMessage
      | some true =>
        if b.block_id ≠ tip.tenure_start_block_id then
          .error .InvalidMessage
        else if cnt + 1 ≠ total then
          .error .InvalidMessage
        else
          .ok true
      | some false =>
        if (match hpid with
            | some highest_processed_block_id =>
              expected == highest_processed_block_id
            | none => false) then
          .ok true
        else if (match hph with
            | some highest_processed_block_height =>
              decide (b.header.chain_length < highest_processed_block_height)
            | none => false) then
          .ok true
        else
          acceptUnconfirmedLoop key tip hpid hph total (cnt + 1)
            b.header.parent_block_id rest

namespace NakamotoUnconfirmedTenureDownloader

/-- `NakamotoUnconfirmedTenureDownloader::try_accept_unconfirmed_tenure_blocks`
(source lines 911-1051). -/
def try_accept_unconfirmed_tenure_blocks
    (dl : NakamotoUnconfirmedTenureDownloader)
    (tenure_blocks : List NakamotoBlock) :
    NakamotoUnconfirmedTenureDownloader ×
      Except NetError (Option (List NakamotoBlock)) :=
  match dl.state with
  | .GetUnconfirmedTenureBlocks last_block_id =>
    match dl.tenure_tip with
    | none => (dl, .error .InvalidState)
    | some tenure_tip =>
      match dl.unconfirmed_aggregate_public_key with
      | none => (dl, .error .InvalidState)
      | some unconfirmed_aggregate_public_key =>
        if tenure_blocks.isEmpty then
          (dl, .ok none)
        else
          match acceptUnconfirmedLoop unconfirmed_aggregate_public_key
              tenure_tip dl.highest_processed_block_id
              dl.highest_processed_block_height tenure_blocks.length
              0 last_block_id tenure_blocks with
          | .error e => (dl, .error e)
          | .ok at_tenure_start =>
            let newBlocks :=
              dl.unconfirmed_tenure_blocks.getD [] ++ tenure_blocks
            if at_tenure_start then
              let highest_processed_block_height :=
                dl.highest_processed_block_height.getD 0
              ({ dl with
                  state := .Done
                  unconfirmed_tenure_blocks := none },
                .ok (some ((newBlocks.filter
                  (fun b =>
                    highest_processed_block_height <
                      b.header.chain_length)).reverse)))
            else
              match newBlocks.getLast? with
              | none =>
                ({ dl with unconfirmed_tenure_blocks := some newBlocks },
                  .error .InvalidState)
              | some earliest_block =>
                ({ dl with
                    unconfirmed_tenure_blocks := some newBlocks
                    state := .GetUnconfirmedTenureBlocks
                      earliest_block.header.parent_block_id },
                  .ok none)
  | _ => (dl, .error .InvalidState)

end NakamotoUnconfirmedTenureDownloader

/-- A tenure that this node wants (`WantedTenure`). -/
structure WantedTenure where
  tenure_id_consensus_hash : Nat
  winning_block_id : Nat
  burn_height : Nat
  processed : Bool
deriving DecidableEq, Repr

/-- A tenure's start and end blocks (`TenureStartEnd`). -/
structure TenureStartEnd where
  tenure_id_consensus_hash : Nat
  start_block_id : Nat
  end_block_id : Nat
  fetch_end_block : Bool
  start_reward_cycle : Nat
  end_reward_cycle : Nat
  processed : Bool
deriving DecidableEq, Repr

/-- `TenureStartEnd::new` (sets `fetch_end_block` to `false`). -/
def TenureStartEnd.new (tenure_id_consensus_hash start_block_id end_block_id
    start_reward_cycle end_reward_cycle : Nat) (processed : Bool) :
    TenureStartEnd :=
  { tenure_id_consensus_hash := tenure_id_consensus_hash
    start_block_id := start_block_id
    end_block_id := end_block_id
    fetch_end_block := false
    start_reward_cycle := start_reward_cycle
    end_reward_cycle := end_reward_cycle
    processed := processed }

/-- `AvailableTenures = HashMap<ConsensusHash, TenureStartEnd>`, modelled as
an association list whose first matching key wins on lookup. -/
def AvailableTenures := List (Nat × TenureStartEnd)

/-- `HashMap::insert`: a later insert shadows an earlier one. -/
def atInsert (m : AvailableTenures) (k : Nat) (v : TenureStartEnd) :
    AvailableTenures :=
  (k, v) :: m

/-- `HashMap::get`. -/
def atLookup (m : AvailableTenures) (k : Nat) : Option TenureStartEnd :=
  List.lookup k m

/-- The `get_mut` mutation at source lines 1437-1446: set `fetch_end_block`
on the entry for `k`, a no-op if the key is absent. -/
def atSetFetch (m : AvailableTenures) (k : Nat) : AvailableTenures :=
  m.map (fun p =>
    if p.1 = k then (p.1, { p.2 with fetch_end_block := true }) else p)

/-- `NakamotoTenureInv`, reduced to its per-reward-cycle inventory
bit-vectors. -/
structure NakamotoTenureInv where
  tenures_inv : Nat → Option (List Bool)

/-- `BitVec::get(i).unwrap_or(false)`. -/
def bitGet (bits : List Bool) (i : Nat) : Bool :=
  (bits.get? i).getD false

/-- The inner scan loops of `from_inventory`'s first phase (source lines
1362-1377 and 1387-1403): starting from `i`, repeatedly increment and stop at
the first index whose inventory bit is set, or at `len` when the scan runs
off the end.  `fuel` bounds the recursion; `len` fuel always suffices. -/
def findNextSetBit (bits : List Bool) (len : Nat) :
    Nat → Nat → Nat
  | 0, i => i
  | fuel + 1, i =>
    let i1 := i + 1
    if i1 ≥ len then i1
    else if ¬ bitGet bits i1 then findNextSetBit bits len fuel i1
    else i1

/-- The first phase of `TenureStartEnd::from_inventory` (source lines
1341-1427): walk `wanted_tenures` left to right, and for every set bit
derive the start/end block ids from the next two set bits.  Returns the map
built so far, the final `last_tenure` index and the final `last_tenure_ch`. -/
def fromInvPhase1 (wanted : List WantedTenure) (bits : List Bool) (rc : Nat) :
    Nat → Nat → Nat → AvailableTenures → Option Nat →
      AvailableTenures × Nat × Option Nat
  | 0, _, last_tenure, acc, last_tenure_ch => (acc, last_tenure, last_tenure_ch)
  | fuel + 1, i, last_tenure, acc, last_tenure_ch =>
    if i < wanted.length then
      match wanted.get? i with
      | none => (acc, last_tenure, last_tenure_ch)
      | some wt =>
        if ¬ bitGet bits i then
          fromInvPhase1 wanted bits rc fuel (i + 1) last_tenure acc
            last_tenure_ch
        else
          let i1 := findNextSetBit bits wanted.length wanted.length i
          match wanted.get? i1 with
          | none => (acc, i, last_tenure_ch)
          | some wt_start =>
            let j := findNextSetBit bits wanted.length wanted.length i1
            match wanted.get? j with
            | none => (acc, i, last_tenure_ch)
            | some wt_end =>
              let tenure_start_end := TenureStartEnd.new
                wt.tenure_id_consensus_hash wt_start.winning_block_id
                wt_end.winning_block_id rc rc wt.processed
              fromInvPhase1 wanted bits rc fuel (i + 1) i
                (atInsert acc wt.tenure_id_consensus_hash tenure_start_end)
                (some wt.tenure_id_consensus_hash)
    else (acc, last_tenure, last_tenure_ch)

/-- The start-block scan of `from_inventory`'s second phase (source lines
1486-1529): advance `i` through `wanted_tenures` and then `n` through
`next_wanted_tenures`, stopping at the first set bit; `next` records whether
the scan crossed into the next cycle (it is sticky across iterations in the
source). -/
def fromInvPhase2Search (bits : List Bool) (wlen : Nat) (nbits : List Bool)
    (nlen : Nat) : Nat → Nat → Nat → Bool → Nat × Nat × Bool
  | 0, i, n, next => (i, n, next)
  | fuel + 1, i, n, next =>
    if i < wlen then
      let i1 := i + 1
      if i1 ≥ wlen then fromInvPhase2Search bits wlen nbits nlen fuel i1 n next
      else if ¬ bitGet bits i1 then
        fromInvPhase2Search bits wlen nbits nlen fuel i1 n next
      else (i1, n, next)
    else
      if n ≥ nlen then (i, n, next)
      else if ¬ bitGet nbits n then
        fromInvPhase2Search bits wlen nbits nlen fuel i (n + 1) next
      else (i, n, true)

/-- The end-block scan of `from_inventory`'s second phase (source lines
1557-1568): the first index at or after `k` whose next-cycle bit is set, or
`nlen`. -/
def findSetBitFrom (nbits : List Bool) (nlen : Nat) : Nat → Nat → Nat
  | 0, k => k
  | fuel + 1, k =>
    if k ≥ nlen then k
    else if ¬ bitGet nbits k then findSetBitFrom nbits nlen fuel (k + 1)
    else k

/-- The second phase of `TenureStartEnd::from_inventory` (source lines
1454-1594): resume from `last_tenure` and account for tenures whose start or
end block lies in `next_wanted_tenures`, every derived `TenureStartEnd`
getting `fetch_end_block = true`.  The inserted entries are collected in
order into `acc`; the caller folds them into the map, which is equivalent to
the source's in-loop inserts because the loop never reads the map. -/
def fromInvPhase2 (wanted next_wanted : List WantedTenure)
    (bits nbits : List Bool) (rc : Nat)
    (bh_to_rc : Nat → Nat) :
    Nat → Nat → Nat → Bool → List (Nat × TenureStartEnd) →
      List (Nat × TenureStartEnd)
  | 0, _, _, _, acc => acc
  | fuel + 1, i, n, next, acc =>
    if i < wanted.length then
      match wanted.get? i with
      | none => acc
      | some wt =>
        if ¬ bitGet bits i then
          fromInvPhase2 wanted next_wanted bits nbits rc bh_to_rc fuel (i + 1)
            n next acc
        else
          match fromInvPhase2Search bits wanted.length nbits next_wanted.length
              (wanted.length + next_wanted.length + 2) i n next with
          | (i1, n1, next1) =>
            let wt_start? := if i1 < wanted.length then wanted.get? i1
              else next_wanted.get? n1
            match wt_start? with
            | none => acc
            | some wt_start =>
              let k0 := if next1 then n1 + 1 else 0
              let k := findSetBitFrom nbits next_wanted.length
                (next_wanted.length + 1) k0
              match next_wanted.get? k with
              | none => acc
              | some wt_end =>
                let tenure_start_end :=
                  { TenureStartEnd.new wt.tenure_id_consensus_hash
                      wt_start.winning_block_id wt_end.winning_block_id rc
                      (bh_to_rc wt_start.burn_height) wt.processed with
                    fetch_end_block := true }
                fromInvPhase2 wanted next_wanted bits nbits rc bh_to_rc fuel
                  i1 n1 next1
                  (acc ++ [(wt.tenure_id_consensus_hash, tenure_start_end)])
    else acc

/-- `TenureStartEnd::from_inventory` (source lines 1326-1596).
`bh_to_rc` models `pox_constants.block_height_to_reward_cycle(first_burn_height, ..)`
with its `.expect` as a total function on the non-panicking inputs. -/
def TenureStartEnd.from_inventory (rc : Nat) (wanted_tenures : List WantedTenure)
    (next_wanted_tenures : Option (List WantedTenure))
    (bh_to_rc : Nat → Nat) (invs : NakamotoTenureInv) :
    Option AvailableTenures :=
  match invs.tenures_inv rc with
  | none => none
  | some invbits =>
    match fromInvPhase1 wanted_tenures invbits rc
        (wanted_tenures.length + 1) 0 0 [] none with
    | (tenure_block_ids, last_tenure, last_tenure_ch) =>
      match next_wanted_tenures with
      | none => some tenure_block_ids
      | some next_wanted =>
        let tenure_block_ids1 :=
          match last_tenure_ch with
          | some ch => atSetFetch tenure_block_ids ch
          | none => tenure_block_ids
        match invs.tenures_inv (rc + 1) with
        | none => some tenure_block_ids1
        | some next_invbits =>
          let entries := fromInvPhase2 wanted_tenures next_wanted invbits
            next_invbits rc bh_to_rc (wanted_tenures.length + 1) last_tenure
            0 false []
          some (entries.foldl (fun m e => atInsert m e.1 e.2) tenure_block_ids1)

/-- Environment snapshot for one tick of
`NakamotoDownloadStateMachine::run`.  `inv_state_present` is whether
`network.inv_state_nakamoto` is `Some` (the first check of
`update_wanted_tenures`, source lines 2729-2733); `wanted_update_rest`
abstracts the sortition-DB-driven remainder of `update_wanted_tenures`
(lines 2735-2824) and `processed_update` abstracts
`update_processed_tenures`; both surface their `Result<(), NetError>`.
`downloads` abstracts `run_downloads`, which returns a plain map of new
blocks per tenure and has no error channel at all. -/
structure DownloadRunEnv where
  inv_state_present : Bool
  wanted_update_rest : Except NetError Unit
  processed_update : Except NetError Unit
  downloads : List (Nat × List NakamotoBlock)

/-- `NakamotoDownloadStateMachine::update_wanted_tenures` (source lines
2722-2824): fails with `PeerNotConnected` when the network has no Nakamoto
inventory state, then proceeds with the sortition-DB-driven remainder. -/
def update_wanted_tenures (env : DownloadRunEnv) : Except NetError Unit :=
  if env.inv_state_present then env.wanted_update_rest
  else .error .PeerNotConnected

/-- `NakamotoDownloadStateMachine::run` (source lines 3746-3759): the `?` on
`update_wanted_tenures` and `update_processed_tenures` propagates their
errors; when both succeed the tick returns the map produced by
`run_downloads`. -/
def NakamotoDownloadStateMachine.run (env : DownloadRunEnv) :
    Except NetError (List (Nat × List NakamotoBlock)) := do
  update_wanted_tenures env
  env.processed_update
  pure env.downloads

/-! Specification-side predicates used to state the claims. -/

/-- The received list is contiguous from the cursor, highest to lowest:
the first block's id is `expected` and each later block's id is the
preceding block's `parent_block_id`. -/
def blocksLinkFrom : Nat → List NakamotoBlock → Bool
  | _, [] => true
  | expected, b :: rest =>
    b.block_id == expected && blocksLinkFrom b.header.parent_block_id rest

/-- Every block's signer signature verifies against `key`. -/
def allSigsVerify (key : Nat) (blocks : List NakamotoBlock) : Bool :=
  blocks.all (fun b => schnorrVerify b.header.signer_signature key)

/-- A highest-to-lowest block run: each successive block's id is the
previous block's `parent_block_id`. -/
def descLinked (bs : List NakamotoBlock) : Prop :=
  List.Chain' (fun a b => b.block_id = a.header.parent_block_id) bs

/-- A lowest-to-highest block run: each block's id is the next block's
`parent_block_id` (the contiguity property of a yielded tenure). -/
def ascLinked (bs : List NakamotoBlock) : Prop :=
  List.Chain' (fun a b => a.block_id = b.header.parent_block_id) bs

/-- The cursor of a `GetTenureBlocks` state points at the parent of the
last collected block (trivially true with nothing collected). -/
def cursorMatches (bs : List NakamotoBlock) (c : Nat) : Prop :=
  match bs.getLast? with
  | none => True
  | some l => c = l.header.parent_block_id

/-- Invariant of a reachable confirmed downloader: the collected blocks are
a highest-to-lowest run and, in state `GetTenureBlocks c`, the cursor `c`
is the parent of the last collected block. -/
def TenureDownloaderInv (dl : NakamotoTenureDownloader) : Prop :=
  ∀ bs, dl.tenure_blocks = some bs →
    descLinked bs ∧
      ∀ c, dl.state = .GetTenureBlocks c → cursorMatches bs c

/-- The success conditions of `try_accept_tenure_blocks` for a non-empty
list, as the claim states them: contiguity from the cursor, signatures
against the start aggregate key, and the cumulative count bound. -/
def tenureBlocksOk (dl : NakamotoTenureDownloader) (cursor : Nat)
    (tc : TenureChangePayload) (blocks : List NakamotoBlock) : Prop :=
  blocksLinkFrom cursor blocks = true ∧
  allSigsVerify dl.start_aggregate_public_key blocks = true ∧
  (dl.tenure_blocks.getD []).length + blocks.length ≤ tc.previous_tenure_blocks

/-- The success conditions of `try_accept_tenure_end_block`, as the claim
states them. -/
def endBlockOk (dl : NakamotoTenureDownloader) (tsb blk : NakamotoBlock) :
    Prop :=
  dl.tenure_end_block_id = blk.block_id ∧
  schnorrVerify blk.header.signer_signature dl.end_aggregate_public_key =
    true ∧
  blk.wellformed_tenure_start = some true ∧
  ∃ tc, blk.tenure_change = some tc ∧
    tc.prev_tenure_consensus_hash = tsb.header.consensus_hash

/-! Concrete instances used by the witnesses and counterexamples. -/

/-- Tenure-start block header for the C1 witness scenario. -/
def hdrW1 : NakamotoBlockHeader :=
  { parent_block_id := 0, chain_length := 5, consensus_hash := 10,
    signer_signature := 42 }

/-- Tenure-start block for the C1 witness scenario. -/
def blkW1 : NakamotoBlock :=
  { header := hdrW1, wellformed_tenure_start := some true,
    tenure_change := none }

/-- Tenure-end header for the C1 witness scenario. -/
def hdrW1end : NakamotoBlockHeader :=
  { parent_block_id := 7, chain_length := 6, consensus_hash := 11,
    signer_signature := 43 }

/-- Tenure-change payload (three-block tenure) for the C1 witness. -/
def tcW1 : TenureChangePayload :=
  { prev_tenure_consensus_hash := 10, previous_tenure_blocks := 3 }

/-- Confirmed downloader in `GetTenureBlocks` at the start block, for the C1
witness. -/
def dlW1 : NakamotoTenureDownloader :=
  { tenure_id_consensus_hash := 10
    tenure_start_block_id := blkW1.block_id
    tenure_end_block_id := 99
    naddr := 1
    start_aggregate_public_key := 42
    end_aggregate_public_key := 44
    idle := true
    state := .GetTenureBlocks blkW1.block_id
    tenure_start_block := some blkW1
    tenure_end_block := none
    tenure_end_header := some (hdrW1end, tcW1)
    tenure_blocks := none }

/-- Parent-side (tenure-start) block header of the C2 counterexample; note
its `chain_length` is larger than the child's, which the downloader never
checks. -/
def hdrC2p : NakamotoBlockHeader :=
  { parent_block_id := 0, chain_length := 9, consensus_hash := 10,
    signer_signature := 42 }

/-- Tenure-start block of the C2 counterexample. -/
def blkC2p : NakamotoBlock :=
  { header := hdrC2p, wellformed_tenure_start := some true,
    tenure_change := none }

/-- Child block header of the C2 counterexample, with a smaller
`chain_length` than its parent. -/
def hdrC2c : NakamotoBlockHeader :=
  { parent_block_id := hdrC2p.block_id, chain_length := 5,
    consensus_hash := 10, signer_signature := 42 }

/-- Child block of the C2 counterexample. -/
def blkC2c : NakamotoBlock :=
  { header := hdrC2c, wellformed_tenure_start := some false,
    tenure_change := none }

/-- Tenure-change payload of the C2 counterexample: it announces three
blocks while only two are delivered before the tenure-start block is
reached. -/
def tcC2 : TenureChangePayload :=
  { prev_tenure_consensus_hash := 10, previous_tenure_blocks := 3 }

/-- Confirmed downloader of the C2 counterexample. -/
def dlC2 : NakamotoTenureDownloader :=
  { tenure_id_consensus_hash := 10
    tenure_start_block_id := blkC2p.block_id
    tenure_end_block_id := 99
    naddr := 1
    start_aggregate_public_key := 42
    end_aggregate_public_key := 44
    idle := true
    state := .GetTenureBlocks blkC2c.block_id
    tenure_start_block := some blkC2p
    tenure_end_block := none
    tenure_end_header := some (hdrW1end, tcC2)
    tenure_blocks := none }

/-- The tenure yielded in the C2 counterexample (lowest-to-highest as
collected, yet with descending `chain_length` and fewer blocks than the
tenure-change payload announces). -/
def ysC2 : List NakamotoBlock := [blkC2p, blkC2c]

/-- Run environment with no Nakamoto inventory state (C3 counterexample). -/
def envC3bad : DownloadRunEnv :=
  { inv_state_present := false
    wanted_update_rest := .ok ()
    processed_update := .ok ()
    downloads := [] }

/-- Run environment whose update steps succeed (C3 witness). -/
def envC3ok : DownloadRunEnv :=
  { inv_state_present := true
    wanted_update_rest := .ok ()
    processed_update := .ok ()
    downloads := [(10, [blkW1])] }

/-- Tenure-end block header for the C4 witness. -/
def hdrW4end : NakamotoBlockHeader :=
  { parent_block_id := 55, chain_length := 8, consensus_hash := 12,
    signer_signature := 44 }

/-- Tenure-change payload of the C4 witness end block, pointing back at the
stored start block's consensus hash. -/
def tcW4 : TenureChangePayload :=
  { prev_tenure_consensus_hash := 10, previous_tenure_blocks := 7 }

/-- Tenure-end block for the C4 witness. -/
def blkW4end : NakamotoBlock :=
  { header := hdrW4end, wellformed_tenure_start := some true,
    tenure_change := some tcW4 }

/-- Confirmed downloader waiting for its end block, for the C4 and C5
witnesses. -/
def dlW4 : NakamotoTenureDownloader :=
  { tenure_id_consensus_hash := 10
    tenure_start_block_id := blkW1.block_id
    tenure_end_block_id := blkW4end.block_id
    naddr := 1
    start_aggregate_public_key := 42
    end_aggregate_public_key := 44
    idle := true
    state := .WaitForTenureEndBlock blkW4end.block_id
    tenure_start_block := some blkW1
    tenure_end_block := none
    tenure_end_header := none
    tenure_blocks := none }

/-- Peer facade snapshot for the C5 witness. -/
def envW5 : NeighborRPCEnv :=
  { has_inflight := false
    is_dead_or_broken := false
    peer_host := some 9
    send_err := none }

/-- Confirmed downloader in `GetTenureBlocks`, for the C8 witness. -/
def dlW8 : NakamotoTenureDownloader :=
  { dlW1 with tenure_blocks := some [blkW1] }

/-- Ongoing-tenure snapshot for the C7 witness. -/
def tsnW : BlockSnapshot :=
  { block_height := 20, sortition_id := 200, consensus_hash := 100,
    winning_stacks_block_hash := 300 }

/-- Parent-tenure snapshot for the C7 witness. -/
def psnW : BlockSnapshot :=
  { block_height := 10, sortition_id := 201, consensus_hash := 101,
    winning_stacks_block_hash := 301 }

/-- Burnchain tip snapshot for the C7 witness. -/
def sortTipW : BlockSnapshot :=
  { block_height := 40, sortition_id := 999, consensus_hash := 102,
    winning_stacks_block_hash := 0 }

/-- Header of the locally stored unconfirmed tenure-start block (C7). -/
def usbWhdr : NakamotoBlockHeader :=
  { parent_block_id := 1, chain_length := 31, consensus_hash := 100,
    signer_signature := 42 }

/-- Tenure-change payload of the unconfirmed start block (C7). -/
def tcW7 : TenureChangePayload :=
  { prev_tenure_consensus_hash := 101, previous_tenure_blocks := 2 }

/-- The locally stored unconfirmed tenure-start block for the C7 witness. -/
def usbW : NakamotoBlock :=
  { header := usbWhdr
    wellformed_tenure_start := some true
    tenure_change := some tcW7 }

/-- Header of the locally stored highest processed block (C7). -/
def hbWhdr : NakamotoBlockHeader :=
  { parent_block_id := 0, chain_length := 35, consensus_hash := 100,
    signer_signature := 42 }

/-- The locally stored highest processed block for the C7 witness; its
`chain_length` (35) is ahead of the remote tip height (30). -/
def hbW : NakamotoBlock :=
  { header := hbWhdr
    wellformed_tenure_start := some false
    tenure_change := none }

/-- Remote tenure-tip descriptor for the C7 witness. -/
def ttW : RPCGetTenureInfo :=
  { consensus_hash := 100
    parent_consensus_hash := 101
    tenure_start_block_id := usbW.block_id
    parent_tenure_start_block_id := 300
    tip_block_id := 500
    tip_height := 30 }

/-- Sortition-DB facade for the C7 witness. -/
def sortdbW : SortitionDB :=
  { get_block_snapshot_consensus := fun ch =>
      if ch = 100 then some tsnW else if ch = 101 then some psnW else none
    get_block_snapshot_by_height := fun sid h =>
      if sid = 999 ∧ h = 20 then some tsnW
      else if sid = 999 ∧ h = 10 then some psnW
      else none
    first_block_height := 0
    block_height_to_reward_cycle := fun _ h => h / 5 }

/-- Chain-state facade for the C7 witness. -/
def chainstateW : StacksChainState :=
  { get_nakamoto_block := fun id =>
      if id = 600 then some hbW
      else if id = usbW.block_id then some usbW
      else none }

/-- Unconfirmed downloader probing the tenure tip, with a known highest
processed block, for the C7 witness. -/
def dlW7 : NakamotoUnconfirmedTenureDownloader :=
  NakamotoUnconfirmedTenureDownloader.new 1 (some 600)

/-- Header of the unconfirmed tenure-start block (C10). -/
def hdrC10s : NakamotoBlockHeader :=
  { parent_block_id := 3, chain_length := 3, consensus_hash := 70,
    signer_signature := 42 }

/-- Unconfirmed tenure-start block of the C10 counterexample, with
`chain_length` (3) at or below the highest processed height (5). -/
def blkC10s : NakamotoBlock :=
  { header := hdrC10s
    wellformed_tenure_start := some true
    tenure_change := none }

/-- Header of the higher unconfirmed block (C10). -/
def hdrC10h : NakamotoBlockHeader :=
  { parent_block_id := blkC10s.block_id, chain_length := 6,
    consensus_hash := 70, signer_signature := 42 }

/-- Higher unconfirmed block of the C10 counterexample. -/
def blkC10h : NakamotoBlock :=
  { header := hdrC10h
    wellformed_tenure_start := some false
    tenure_change := none }

/-- Remote tenure-tip descriptor of the C10 counterexample. -/
def tipC10 : RPCGetTenureInfo :=
  { consensus_hash := 70
    parent_consensus_hash := 71
    tenure_start_block_id := blkC10s.block_id
    parent_tenure_start_block_id := 72
    tip_block_id := 73
    tip_height := 50 }

/-- Unconfirmed downloader of the C10 counterexample, with highest
processed height 5. -/
def dlC10 : NakamotoUnconfirmedTenureDownloader :=
  { state := .GetUnconfirmedTenureBlocks blkC10h.block_id
    naddr := 1
    confirmed_aggregate_public_key := none
    unconfirmed_aggregate_public_key := some 42
    highest_processed_block_id := none
    highest_processed_block_height := some 5
    tenure_tip := some tipC10
    unconfirmed_tenure_start_block := none
    unconfirmed_tenure_blocks := none }

/-- Wanted tenures of the current reward cycle for the C6 witness. -/
def wantedW : List WantedTenure :=
  [{ tenure_id_consensus_hash := 30, winning_block_id := 40,
     burn_height := 5, processed := false },
   { tenure_id_consensus_hash := 31, winning_block_id := 41,
     burn_height := 6, processed := false },
   { tenure_id_consensus_hash := 32, winning_block_id := 42,
     burn_height := 7, processed := false }]

/-- Wanted tenures of the next reward cycle for the C6 witness. -/
def nwtW : List WantedTenure :=
  [{ tenure_id_consensus_hash := 33, winning_block_id := 43,
     burn_height := 10, processed := false }]

/-- Inventory bit-vectors for the C6 witness. -/
def invsW : NakamotoTenureInv :=
  { tenures_inv := fun r =>
      if r = 0 then some [true, true, true]
      else if r = 1 then some [true]
      else none }

/-- Reward-cycle assignment for the C6 witness. -/
def bh2rcW : Nat → Nat := fun _ => 1

/-- The cross-cycle `TenureStartEnd` produced in the C6 witness. -/
def tse31W : TenureStartEnd :=
  { tenure_id_consensus_hash := 31, start_block_id := 42, end_block_id := 43,
    fetch_end_block := true, start_reward_cycle := 0, end_reward_cycle := 1,
    processed := false }

/-- The last wholly-in-cycle `TenureStartEnd` of the C6 witness, after its
`fetch_end_block` marking. -/
def tse30W : TenureStartEnd :=
  { tenure_id_consensus_hash := 30, start_block_id := 41, end_block_id := 42,
    fetch_end_block := true, start_reward_cycle := 0, end_reward_cycle := 0,
    processed := false }

/-- The availability map computed in the C6 witness. -/
def mW : AvailableTenures := [(31, tse31W), (30, tse30W)]

/-! Helper lemmas. -/

theorem try_accept_tenure_end_block_idle (dl : NakamotoTenureDownloader)
    (b : NakamotoBlock) :
    (dl.try_accept_tenure_end_block b).1.idle = dl.idle := by
  unfold NakamotoTenureDownloader.try_accept_tenure_end_block
  repeat' split
  all_goals rfl

theorem try_accept_tenure_start_block_idle (dl : NakamotoTenureDownloader)
    (b : NakamotoBlock) :
    (dl.try_accept_tenure_start_block b).1.idle = dl.idle := by
  unfold NakamotoTenureDownloader.try_accept_tenure_start_block
  split
  case h_2 => rfl
  split_ifs <;> try rfl
  dsimp only
  split
  · rfl
  · split
    · simp [try_accept_tenure_end_block_idle]
    · rfl

theorem try_accept_tenure_blocks_idle (dl : NakamotoTenureDownloader)
    (bs : List NakamotoBlock) :
    (dl.try_accept_tenure_blocks bs).1.idle = dl.idle := by
  unfold NakamotoTenureDownloader.try_accept_tenure_blocks
  dsimp only
  repeat' split
  all_goals rfl

theorem acceptBlocksLoop_sound (key clen tlen : Nat)
    (blocks : List NakamotoBlock) :
    ∀ expected count,
      NakamotoTenureDownloader.acceptBlocksLoop key clen tlen expected count blocks = .ok () →
      blocksLinkFrom expected blocks = true ∧
      allSigsVerify key blocks = true ∧
      (blocks = [] ∨ clen + count + blocks.length ≤ tlen) := by
  induction blocks with
  | nil =>
    intro e c _
    simp [blocksLinkFrom, allSigsVerify]
  | cons b rest ih =>
    intro e c h
    unfold NakamotoTenureDownloader.acceptBlocksLoop at h
    by_cases h1 : b.block_id = e
    · rw [if_neg (not_not_intro h1)] at h
      by_cases h2 : schnorrVerify b.header.signer_signature key = true
      · rw [if_neg (not_not_intro h2)] at h
        by_cases h3 : clen + (c + 1) > tlen
        · rw [if_pos h3] at h
          cases h
        · rw [if_neg h3] at h
          obtain ⟨hl, hs, hb⟩ := ih _ _ h
          refine ⟨?_, ?_, Or.inr ?_⟩
          · simp [blocksLinkFrom, h1, hl]
          · simp only [allSigsVerify, List.all_cons, Bool.and_eq_true]
            exact ⟨h2, by simpa [allSigsVerify] using hs⟩
          · rcases hb with rfl | hb
            · simp only [List.length_cons, List.length_nil]
              omega
            · simp only [List.length_cons]
              omega
      · rw [if_pos h2] at h
        cases h
    · rw [if_pos h1] at h
      cases h

theorem acceptBlocksLoop_complete (key clen tlen : Nat)
    (blocks : List NakamotoBlock) :
    ∀ expected count,
      blocksLinkFrom expected blocks = true →
      allSigsVerify key blocks = true →
      clen + count + blocks.length ≤ tlen →
      NakamotoTenureDownloader.acceptBlocksLoop key clen tlen expected count blocks = .ok () := by
  induction blocks with
  | nil => intro e c _ _ _; rfl
  | cons b rest ih =>
    intro e c hl hs hb
    rw [blocksLinkFrom, Bool.and_eq_true, beq_iff_eq] at hl
    rw [allSigsVerify, List.all_cons, Bool.and_eq_true] at hs
    unfold NakamotoTenureDownloader.acceptBlocksLoop
    rw [if_neg (by simp [hl.1]), if_neg (by simp [hs.1]),
      if_neg (by simp only [List.length_cons] at hb; omega)]
    exact ih _ _ hl.2 hs.2 (by simp only [List.length_cons] at hb; omega)

theorem acceptBlocksLoop_ok_or_invalid (key clen tlen : Nat)
    (blocks : List NakamotoBlock) :
    ∀ expected count,
      NakamotoTenureDownloader.acceptBlocksLoop key clen tlen expected count blocks = .ok () ∨
      NakamotoTenureDownloader.acceptBlocksLoop key clen tlen expected count blocks =
        .error .InvalidMessage := by
  induction blocks with
  | nil => intro e c; exact Or.inl rfl
  | cons b rest ih =>
    intro e c
    unfold NakamotoTenureDownloader.acceptBlocksLoop
    by_cases h1 : b.block_id = e
    · rw [if_neg (not_not_intro h1)]
      by_cases h2 : schnorrVerify b.header.signer_signature key = true
      · rw [if_neg (not_not_intro h2)]
        by_cases h3 : clen + (c + 1) > tlen
        · rw [if_pos h3]
          exact Or.inr rfl
        · rw [if_neg h3]
          exact ih _ _
      · rw [if_pos h2]
        exact Or.inr rfl
    · rw [if_pos h1]
      exact Or.inr rfl

theorem blocksLinkFrom_descLinked (bs : List NakamotoBlock) :
    ∀ e, blocksLinkFrom e bs = true →
      descLinked bs ∧ ∀ hd, bs.head? = some hd → hd.block_id = e := by
  induction bs with
  | nil =>
    intro e _
    exact ⟨List.chain'_nil, by intro hd h; cases h⟩
  | cons b rest ih =>
    intro e h
    rw [blocksLinkFrom, Bool.and_eq_true, beq_iff_eq] at h
    obtain ⟨h1, h2⟩ := h
    obtain ⟨hdesc, hhead⟩ := ih _ h2
    constructor
    · rw [descLinked, List.chain'_cons']
      exact ⟨fun y hy => hhead y hy, hdesc⟩
    · intro x hx
      rw [List.head?_cons, Option.some.injEq] at hx
      rw [← hx]
      exact h1

theorem descLinked_append_of (old blocks : List NakamotoBlock) (cursor : Nat)
    (hold : descLinked old) (hcm : cursorMatches old cursor)
    (hl : blocksLinkFrom cursor blocks = true) :
    descLinked (old ++ blocks) := by
  obtain ⟨hdesc, hhead⟩ := blocksLinkFrom_descLinked blocks cursor hl
  rw [descLinked, List.chain'_append]
  refine ⟨hold, hdesc, ?_⟩
  intro x hx y hy
  have hx' : old.getLast? = some x := hx
  have hy' := hhead y hy
  rw [hy']
  unfold cursorMatches at hcm
  rw [hx'] at hcm
  exact hcm

theorem ascLinked_reverse_of_descLinked (l : List NakamotoBlock)
    (h : descLinked l) : ascLinked l.reverse := by
  rw [ascLinked, List.chain'_reverse]
  exact h

theorem fromInvPhase2_mem (wanted next_wanted : List WantedTenure)
    (bits nbits : List Bool) (rc : Nat) (bh_to_rc : Nat → Nat) :
    ∀ fuel i n next acc p,
      p ∈ fromInvPhase2 wanted next_wanted bits nbits rc bh_to_rc fuel i n
        next acc →
      p ∈ acc ∨ p.2.fetch_end_block = true := by
  intro fuel
  induction fuel with
  | zero =>
    intro i n next acc p hp
    exact Or.inl hp
  | succ fuel ih =>
    intro i n next acc p hp
    rw [fromInvPhase2] at hp
    repeat'
      first
      | split at hp
      | dsimp only at hp
    all_goals first
    | exact Or.inl hp
    | exact ih _ _ _ _ _ hp
    | (rcases ih _ _ _ _ _ hp with hin | ht
       · rcases List.mem_append.mp hin with hin2 | hin2
         · exact Or.inl hin2
         · rw [List.mem_singleton] at hin2
           subst hin2
           exact Or.inr rfl
       · exact Or.inr ht)

theorem atLookup_foldl_insert (es : List (Nat × TenureStartEnd)) :
    ∀ (m : AvailableTenures) (ch : Nat) (v : TenureStartEnd),
      atLookup (es.foldl (fun m e => atInsert m e.1 e.2) m) ch = some v →
      (ch, v) ∈ es ∨ atLookup m ch = some v := by
  induction es with
  | nil =>
    intro m ch v h
    exact Or.inr h
  | cons e es ih =>
    intro m ch v h
    rw [List.foldl_cons] at h
    rcases ih _ _ _ h with hmem | hlk
    · exact Or.inl (List.mem_cons_of_mem _ hmem)
    · rw [atInsert, atLookup] at hlk
      by_cases hk : ch = e.1
      · subst hk
        simp [List.lookup] at hlk
        exact Or.inl (by rw [← hlk]; exact List.mem_cons_self _ _)
      · have hbeq : (ch == e.1) = false := beq_eq_false_iff_ne.mpr hk
        simp only [List.lookup, hbeq] at hlk
        exact Or.inr hlk

theorem atLookup_atSetFetch (m : AvailableTenures) (ch : Nat) :
    ∀ v, atLookup (atSetFetch m ch) ch = some v →
      v.fetch_end_block = true := by
  induction m with
  | nil =>
    intro v h
    cases h
  | cons p m ih =>
    intro p2 h
    rw [atSetFetch, List.map_cons] at h
    by_cases hk : p.1 = ch
    · rw [if_pos hk] at h
      subst hk
      simp [atLookup, List.lookup] at h
      rw [← h]
    · rw [if_neg hk] at h
      have hbeq : (ch == p.1) = false :=
        beq_eq_false_iff_ne.mpr (fun hc => hk hc.symm)
      simp only [atLookup, List.lookup, hbeq] at h
      exact ih p2 h

/-! Claim theorems. -/

/-- C1: in state `GetTenureBlocks cursor` with a stored tenure-start block
and tenure-end header, `try_accept_tenure_blocks` on a non-empty list
succeeds exactly when the list is parent-contiguous from the cursor, every
signer signature verifies against the start aggregate key, and the
cumulative collected count stays within `tc.previous_tenure_blocks`; any
violation yields `InvalidMessage` and leaves the downloader unchanged.  On
success, when the earliest accepted block is the stored tenure-start block
the state becomes `Done` and the whole tenure is returned reversed
(lowest-to-highest); otherwise the state becomes `GetTenureBlocks` of the
earliest accepted block's parent and nothing is returned. -/
theorem try_accept_tenure_blocks_spec (dl : NakamotoTenureDownloader)
    (blocks : List NakamotoBlock) (cursor : Nat) (tsb : NakamotoBlock)
    (hdr : NakamotoBlockHeader) (tc : TenureChangePayload)
    (hstate : dl.state = .GetTenureBlocks cursor)
    (hstart : dl.tenure_start_block = some tsb)
    (hend : dl.tenure_end_header = some (hdr, tc))
    (hne : blocks ≠ []) :
    (¬ tenureBlocksOk dl cursor tc blocks →
      dl.try_accept_tenure_blocks blocks = (dl, .error .InvalidMessage)) ∧
    (tenureBlocksOk dl cursor tc blocks →
      ∀ earliest,
        (dl.tenure_blocks.getD [] ++ blocks).getLast? = some earliest →
        (earliest.block_id = tsb.block_id →
          dl.try_accept_tenure_blocks blocks =
            ({ dl with state := .Done, tenure_blocks := none },
              .ok (some (dl.tenure_blocks.getD [] ++ blocks).reverse))) ∧
        (earliest.block_id ≠ tsb.block_id →
          dl.try_accept_tenure_blocks blocks =
            ({ dl with
                tenure_blocks := some (dl.tenure_blocks.getD [] ++ blocks)
                state := .GetTenureBlocks earliest.header.parent_block_id },
              .ok none))) := by
  have htl : dl.tenure_length.getD 0 = tc.previous_tenure_blocks := by
    simp [NakamotoTenureDownloader.tenure_length, hend]
  have hempty : blocks.isEmpty = false := by
    cases blocks with
    | nil => exact absurd rfl hne
    | cons a l => rfl
  constructor
  · intro hno
    have hloop : NakamotoTenureDownloader.acceptBlocksLoop
        dl.start_aggregate_public_key (dl.tenure_blocks.getD []).length
        (dl.tenure_length.getD 0) cursor 0 blocks =
        .error .InvalidMessage := by
      rcases acceptBlocksLoop_ok_or_invalid dl.start_aggregate_public_key
        (dl.tenure_blocks.getD []).length (dl.tenure_length.getD 0) blocks
        cursor 0 with hok | herr
      · exfalso
        apply hno
        obtain ⟨hl, hs, hb⟩ := acceptBlocksLoop_sound _ _ _ _ _ _ hok
        refine ⟨hl, hs, ?_⟩
        rcases hb with rfl | hb
        · exact absurd rfl hne
        · rw [htl] at hb
          omega
      · exact herr
    unfold NakamotoTenureDownloader.try_accept_tenure_blocks
    rw [hstate]
    dsimp only
    rw [if_neg (by simp [hempty]), hloop]
  · intro hok earliest hlast
    obtain ⟨hl, hs, hb⟩ := hok
    have hloop := acceptBlocksLoop_complete dl.start_aggregate_public_key
      (dl.tenure_blocks.getD []).length (dl.tenure_length.getD 0) blocks
      cursor 0 hl hs (by rw [htl]; omega)
    constructor <;> intro hcmp <;>
    · unfold NakamotoTenureDownloader.try_accept_tenure_blocks
      rw [hstate]
      dsimp only
      rw [if_neg (by simp [hempty]), hloop]
      dsimp only
      rw [hlast]
      dsimp only
      rw [hstart]
      dsimp only
      first
      | rw [if_pos hcmp]
      | rw [if_neg hcmp]

/-- Witness for C1: a single valid block that is the tenure-start block
completes the tenure. -/
theorem try_accept_tenure_blocks_spec_witness :
    dlW1.state = .GetTenureBlocks blkW1.block_id ∧
    dlW1.tenure_start_block = some blkW1 ∧
    dlW1.tenure_end_header = some (hdrW1end, tcW1) ∧
    tenureBlocksOk dlW1 blkW1.block_id tcW1 [blkW1] ∧
    dlW1.try_accept_tenure_blocks [blkW1] =
      ({ dlW1 with state := .Done, tenure_blocks := none },
        .ok (some [blkW1])) := by
  have hok : tenureBlocksOk dlW1 blkW1.block_id tcW1 [blkW1] := by
    refine ⟨by decide, by decide, by decide⟩
  have h := (try_accept_tenure_blocks_spec dlW1 [blkW1] blkW1.block_id blkW1
    hdrW1end tcW1 rfl rfl rfl (by decide)).2 hok blkW1 (by decide)
  exact ⟨rfl, rfl, rfl, hok, by simpa using h.1 rfl⟩

/-- A freshly created confirmed downloader satisfies the collected-blocks
invariant. -/
theorem new_satisfies_inv (a b c d e f : Nat) :
    TenureDownloaderInv (NakamotoTenureDownloader.new a b c d e f) := by
  intro bs hb
  rw [show (NakamotoTenureDownloader.new a b c d e f).tenure_blocks = none
    from rfl] at hb
  cases hb

/-- With a stored tenure-start block, `try_accept_tenure_blocks` preserves
the collected-blocks invariant, so the invariant holds in every reachable
state of the block-collection phase. -/
theorem try_accept_tenure_blocks_preserves_inv
    (dl : NakamotoTenureDownloader) (blocks : List NakamotoBlock)
    (tsb : NakamotoBlock) (hstart : dl.tenure_start_block = some tsb)
    (hinv : TenureDownloaderInv dl) :
    TenureDownloaderInv (dl.try_accept_tenure_blocks blocks).1 := by
  unfold NakamotoTenureDownloader.try_accept_tenure_blocks
  cases hstate : dl.state with
  | GetTenureBlocks cursor =>
    dsimp only
    by_cases hemp : blocks.isEmpty = true
    · rw [if_pos hemp]
      exact hinv
    · rw [if_neg hemp]
      have hbne : blocks ≠ [] := by
        cases blocks with
        | nil => exact absurd rfl hemp
        | cons a l => exact List.cons_ne_nil a l
      rcases acceptBlocksLoop_ok_or_invalid dl.start_aggregate_public_key
        (dl.tenure_blocks.getD []).length (dl.tenure_length.getD 0) blocks
        cursor 0 with hloop | hloop
      · rw [hloop]
        dsimp only
        obtain ⟨hl, hs, hb⟩ := acceptBlocksLoop_sound _ _ _ _ _ _ hloop
        have hOld : descLinked (dl.tenure_blocks.getD []) ∧
            cursorMatches (dl.tenure_blocks.getD []) cursor := by
          cases hob : dl.tenure_blocks with
          | none =>
            exact ⟨List.chain'_nil, by rw [cursorMatches]; simp⟩
          | some bs =>
            obtain ⟨hd, hc⟩ := hinv bs hob
            exact ⟨by simpa using hd, by simpa using hc cursor hstate⟩
        have hdescNew : descLinked (dl.tenure_blocks.getD [] ++ blocks) :=
          descLinked_append_of _ _ _ hOld.1 hOld.2 hl
        cases hlast : (dl.tenure_blocks.getD [] ++ blocks).getLast? with
        | none =>
          dsimp only
          intro bs hb
          injection hb with hb
          rw [← hb]
          have hne2 : dl.tenure_blocks.getD [] ++ blocks ≠ [] := by
            simp [hbne]
          have hsome := List.getLast?_isSome.mpr hne2
          rw [hlast] at hsome
          cases hsome
        | some earliest =>
          dsimp only
          rw [hstart]
          dsimp only
          by_cases hcmp : earliest.block_id = tsb.block_id
          · rw [if_pos hcmp]
            intro bs hb
            cases hb
          · rw [if_neg hcmp]
            intro bs hb
            injection hb with hb
            refine ⟨by rw [← hb]; exact hdescNew, ?_⟩
            intro c hc
            injection hc with hc
            rw [← hb, cursorMatches, hlast, ← hc]
      · rw [hloop]
        exact hinv
  | GetTenureStartBlock bid =>
    dsimp only
    exact hinv
  | WaitForTenureEndBlock bid =>
    dsimp only
    exact hinv
  | GetTenureEndBlock bid =>
    dsimp only
    exact hinv
  | Done =>
    dsimp only
    exact hinv

/-- C2 counterexample: a tenure yielded at `Done` whose blocks are
parent-contiguous but whose `chain_length`s are not ascending, and whose
length (2) differs from the tenure-change payload's
`previous_tenure_blocks` (3): the downloader validates neither property. -/
theorem yielded_tenure_order_counterexample :
    (dlC2.try_accept_tenure_blocks [blkC2c, blkC2p]).2 = .ok (some ysC2) ∧
    dlC2.tenure_length = some 3 ∧
    ysC2.length ≠ 3 ∧
    ¬ List.Chain' (fun a b => a.header.chain_length < b.header.chain_length)
      ysC2 := by
  refine ⟨rfl, rfl, by decide, ?_⟩
  intro hch
  rw [ysC2, List.chain'_cons] at hch
  exact absurd hch.1 (by decide)

/-- C2 (amended): any tenure yielded by `try_accept_tenure_blocks` from a
downloader satisfying the collected-blocks invariant is contiguous by
`parent_block_id` (each block's id is the next block's parent) and its
length is at most the tenure-change payload's `previous_tenure_blocks`;
neither ascending `chain_length` nor exact length is enforced. -/
theorem yielded_tenure_contiguous (dl dl' : NakamotoTenureDownloader)
    (blocks ys : List NakamotoBlock)
    (hinv : TenureDownloaderInv dl)
    (h : dl.try_accept_tenure_blocks blocks = (dl', .ok (some ys))) :
    ascLinked ys ∧ ys.length ≤ dl.tenure_length.getD 0 := by
  unfold NakamotoTenureDownloader.try_accept_tenure_blocks at h
  cases hstate : dl.state with
  | GetTenureBlocks cursor =>
    rw [hstate] at h
    dsimp only at h
    by_cases hemp : blocks.isEmpty = true
    · rw [if_pos hemp] at h
      simp at h
    · rw [if_neg hemp] at h
      have hbne : blocks ≠ [] := by
        cases blocks with
        | nil => exact absurd rfl hemp
        | cons a l => exact List.cons_ne_nil a l
      rcases acceptBlocksLoop_ok_or_invalid dl.start_aggregate_public_key
        (dl.tenure_blocks.getD []).length (dl.tenure_length.getD 0) blocks
        cursor 0 with hloop | hloop
      · rw [hloop] at h
        dsimp only at h
        obtain ⟨hl, hs, hb⟩ := acceptBlocksLoop_sound _ _ _ _ _ _ hloop
        have hbound : (dl.tenure_blocks.getD []).length + blocks.length ≤
            dl.tenure_length.getD 0 := by
          rcases hb with rfl | hb
          · exact absurd rfl hbne
          · omega
        have hOld : descLinked (dl.tenure_blocks.getD []) ∧
            cursorMatches (dl.tenure_blocks.getD []) cursor := by
          cases hob : dl.tenure_blocks with
          | none =>
            exact ⟨List.chain'_nil, by rw [cursorMatches]; simp⟩
          | some bs =>
            obtain ⟨hd, hc⟩ := hinv bs hob
            exact ⟨by simpa using hd, by simpa using hc cursor hstate⟩
        have hdescNew : descLinked (dl.tenure_blocks.getD [] ++ blocks) :=
          descLinked_append_of _ _ _ hOld.1 hOld.2 hl
        cases hlast : (dl.tenure_blocks.getD [] ++ blocks).getLast? with
        | none =>
          rw [hlast] at h
          simp at h
        | some earliest =>
          rw [hlast] at h
          dsimp only at h
          cases hstart : dl.tenure_start_block with
          | none =>
            rw [hstart] at h
            simp at h
          | some tsb =>
            rw [hstart] at h
            dsimp only at h
            by_cases hcmp : earliest.block_id = tsb.block_id
            · rw [if_pos hcmp] at h
              injection h with h1 h2
              injection h2 with h2
              injection h2 with h2
              rw [← h2]
              constructor
              · exact ascLinked_reverse_of_descLinked _ hdescNew
              · rw [List.length_reverse, List.length_append]
                omega
            · rw [if_neg hcmp] at h
              simp at h
      · rw [hloop] at h
        simp at h
  | GetTenureStartBlock bid =>
    rw [hstate] at h
    simp at h
  | WaitForTenureEndBlock bid =>
    rw [hstate] at h
    simp at h
  | GetTenureEndBlock bid =>
    rw [hstate] at h
    simp at h
  | Done =>
    rw [hstate] at h
    simp at h

/-- Witness for C2 (amended) at the concrete two-block scenario. -/
theorem yielded_tenure_contiguous_witness :
    TenureDownloaderInv dlC2 ∧
    dlC2.try_accept_tenure_blocks [blkC2c, blkC2p] =
      ({ dlC2 with state := .Done, tenure_blocks := none },
        .ok (some ysC2)) ∧
    (ascLinked ysC2 ∧ ysC2.length ≤ dlC2.tenure_length.getD 0) := by
  have hinv : TenureDownloaderInv dlC2 := by
    intro bs hb
    rw [show dlC2.tenure_blocks = none from rfl] at hb
    cases hb
  have heq : dlC2.try_accept_tenure_blocks [blkC2c, blkC2p] =
      ({ dlC2 with state := .Done, tenure_blocks := none },
        .ok (some ysC2)) := rfl
  exact ⟨hinv, heq,
    yielded_tenure_contiguous dlC2 _ [blkC2c, blkC2p] ysC2 hinv heq⟩

/-- C4: with a stored tenure-start block, `try_accept_tenure_end_block`
returns `InvalidState` outside the `WaitForTenureEndBlock`/`GetTenureEndBlock`
states; in those states it returns `InvalidMessage` unless the block's id is
the expected end-block id, its signature verifies against the end aggregate
key, and it is a well-formed tenure-start block whose tenure-change payload
points back at the stored start block's consensus hash; on success it stores
the header and payload and moves to `GetTenureBlocks` of the end block's
parent. -/
theorem try_accept_tenure_end_block_spec (dl : NakamotoTenureDownloader)
    (blk tsb : NakamotoBlock)
    (hstart : dl.tenure_start_block = some tsb) :
    (NakamotoTenureDownloader.isEndBlockRecvState dl.state = false →
      dl.try_accept_tenure_end_block blk = (dl, .error .InvalidState)) ∧
    (NakamotoTenureDownloader.isEndBlockRecvState dl.state = true →
      (¬ endBlockOk dl tsb blk →
        dl.try_accept_tenure_end_block blk = (dl, .error .InvalidMessage)) ∧
      (∀ tc, blk.tenure_change = some tc → endBlockOk dl tsb blk →
        dl.try_accept_tenure_end_block blk =
          ({ dl with
              tenure_end_header := some (blk.header, tc)
              state := .GetTenureBlocks blk.header.parent_block_id },
            .ok ()))) := by
  unfold NakamotoTenureDownloader.try_accept_tenure_end_block
  constructor
  · intro hF
    rw [if_pos (by simp [hF])]
  · intro hT
    rw [if_neg (by simp [hT]), hstart]
    dsimp only
    constructor
    · intro hno
      by_cases h1 : dl.tenure_end_block_id = blk.block_id
      · rw [if_neg (not_not_intro h1)]
        by_cases h2 : schnorrVerify blk.header.signer_signature
            dl.end_aggregate_public_key = true
        · rw [if_neg (not_not_intro h2)]
          cases hwf : blk.wellformed_tenure_start with
          | none => rfl
          | some wf =>
            cases wf with
            | false => rfl
            | true =>
              cases htc : blk.tenure_change with
              | none => rfl
              | some tc =>
                dsimp only
                by_cases h5 : tc.prev_tenure_consensus_hash =
                    tsb.header.consensus_hash
                · exact absurd ⟨h1, h2, hwf, tc, htc, h5⟩ hno
                · rw [if_pos h5]
        · rw [if_pos h2]
      · rw [if_pos h1]
    · intro tc htc hok
      obtain ⟨h1, h2, h3, tc', htc', h5⟩ := hok
      rw [htc] at htc'
      cases htc'
      rw [if_neg (not_not_intro h1), if_neg (not_not_intro h2), h3, htc]
      dsimp only
      rw [if_neg (not_not_intro h5)]

/-- Witness for C4: a valid end block is accepted from `WaitForTenureEndBlock`
and the downloader advances to fetching the tenure body. -/
theorem try_accept_tenure_end_block_spec_witness :
    dlW4.tenure_start_block = some blkW1 ∧
    NakamotoTenureDownloader.isEndBlockRecvState dlW4.state = true ∧
    blkW4end.tenure_change = some tcW4 ∧
    endBlockOk dlW4 blkW1 blkW4end ∧
    dlW4.try_accept_tenure_end_block blkW4end =
      ({ dlW4 with
          tenure_end_header := some (blkW4end.header, tcW4)
          state := .GetTenureBlocks 55 }, .ok ()) := by
  have hok : endBlockOk dlW4 blkW1 blkW4end :=
    ⟨by decide, by decide, rfl, tcW4, rfl, by decide⟩
  have h := ((try_accept_tenure_end_block_spec dlW4 blkW4end blkW1 rfl).2
    rfl).2 tcW4 rfl hok
  exact ⟨rfl, rfl, rfl, hok, by simpa using h⟩

/-- C10 counterexample: reaching `Done`, the collected block at or below the
highest processed height (`blkC10s`, height 3 with highest processed 5) is
excluded from the returned list, but it is not retained internally: the
downloader's collected-blocks store is taken and left empty. -/
theorem unconfirmed_blocks_not_retained_counterexample :
    dlC10.try_accept_unconfirmed_tenure_blocks [blkC10h, blkC10s] =
      ({ dlC10 with state := .Done, unconfirmed_tenure_blocks := none },
        .ok (some [blkC10h])) ∧
    blkC10s.header.chain_length ≤ 5 ∧
    dlC10.highest_processed_block_height = some 5 ∧
    ({ dlC10 with state := .Done, unconfirmed_tenure_blocks := none } :
      NakamotoUnconfirmedTenureDownloader).unconfirmed_tenure_blocks =
      none :=
  ⟨rfl, by decide, rfl, rfl⟩

/-- C10 (amended): whenever `try_accept_unconfirmed_tenure_blocks` yields a
list on reaching `Done`, that list is exactly the collected blocks whose
`chain_length` strictly exceeds the highest processed height (0 when unset),
in reverse download order, and the internal collection is emptied — blocks
at or below that height are dropped, not retained. -/
theorem unconfirmed_tenure_yield_filter
    (dl dl' : NakamotoUnconfirmedTenureDownloader)
    (blocks ys : List NakamotoBlock)
    (h : dl.try_accept_unconfirmed_tenure_blocks blocks =
      (dl', .ok (some ys))) :
    ys = ((dl.unconfirmed_tenure_blocks.getD [] ++ blocks).filter
      (fun b => dl.highest_processed_block_height.getD 0 <
        b.header.chain_length)).reverse ∧
    dl'.unconfirmed_tenure_blocks = none ∧ dl'.state = .Done := by
  unfold NakamotoUnconfirmedTenureDownloader.try_accept_unconfirmed_tenure_blocks
    at h
  cases hstate : dl.state with
  | GetUnconfirmedTenureBlocks last_block_id =>
    rw [hstate] at h
    dsimp only at h
    cases htip : dl.tenure_tip with
    | none =>
      rw [htip] at h
      simp at h
    | some tip =>
      rw [htip] at h
      dsimp only at h
      cases hkey : dl.unconfirmed_aggregate_public_key with
      | none =>
        rw [hkey] at h
        simp at h
      | some key =>
        rw [hkey] at h
        dsimp only at h
        by_cases hemp : blocks.isEmpty = true
        · rw [if_pos hemp] at h
          simp at h
        · rw [if_neg hemp] at h
          cases hloop : acceptUnconfirmedLoop key tip
              dl.highest_processed_block_id
              dl.highest_processed_block_height blocks.length 0
              last_block_id blocks with
          | error e =>
            rw [hloop] at h
            simp at h
          | ok at_tenure_start =>
            rw [hloop] at h
            dsimp only at h
            cases at_tenure_start with
            | false =>
              cases hlast : (dl.unconfirmed_tenure_blocks.getD [] ++
                  blocks).getLast? with
              | none =>
                rw [hlast] at h
                simp at h
              | some earliest =>
                rw [hlast] at h
                simp at h
            | true =>
              injection h with h1 h2
              injection h2 with h2
              injection h2 with h2
              refine ⟨h2.symm, ?_, ?_⟩
              · rw [← h1]
              · rw [← h1]
  | GetTenureInfo =>
    rw [hstate] at h
    simp at h
  | GetTenureStartBlock bid =>
    rw [hstate] at h
    simp at h
  | Done =>
    rw [hstate] at h
    simp at h

/-- Witness for C10 (amended) at the concrete two-block scenario. -/
theorem unconfirmed_tenure_yield_filter_witness :
    dlC10.try_accept_unconfirmed_tenure_blocks [blkC10h, blkC10s] =
      ({ dlC10 with state := .Done, unconfirmed_tenure_blocks := none },
        .ok (some [blkC10h])) ∧
    ([blkC10h] =
      ((dlC10.unconfirmed_tenure_blocks.getD [] ++ [blkC10h, blkC10s]).filter
        (fun b => dlC10.highest_processed_block_height.getD 0 <
          b.header.chain_length)).reverse ∧
      ({ dlC10 with state := .Done, unconfirmed_tenure_blocks := none } :
        NakamotoUnconfirmedTenureDownloader).unconfirmed_tenure_blocks =
        none ∧
      ({ dlC10 with state := .Done, unconfirmed_tenure_blocks := none } :
        NakamotoUnconfirmedTenureDownloader).state = .Done) :=
  ⟨rfl, unconfirmed_tenure_yield_filter dlC10 _ [blkC10h, blkC10s] [blkC10h]
    rfl⟩

/-- C7: in state `GetTenureInfo` with a known highest processed block, when
the sortition checks pass and the local tip is at or ahead of the remote tip
(same tip block, or strictly greater local height), `try_accept_tenure_info`
loads the unconfirmed tenure-start block from local chain-state, stores it,
and transitions directly to `Done` — no `GetTenureStartBlock` or
`GetUnconfirmedTenureBlocks` step. -/
theorem try_accept_tenure_info_early_out
    (dl : NakamotoUnconfirmedTenureDownloader) (sortdb : SortitionDB)
    (sort_tip : BlockSnapshot) (chainstate : StacksChainState)
    (tt : RPCGetTenureInfo) (aggk : Nat → Option (Option Nat))
    (hid : Nat) (hb usb : NakamotoBlock) (tsn psn asn apsn : BlockSnapshot)
    (h1 : dl.state = .GetTenureInfo)
    (h2 : dl.tenure_tip = none)
    (h3 : dl.highest_processed_block_id = some hid)
    (h4 : sortdb.get_block_snapshot_consensus tt.consensus_hash = some tsn)
    (h5 : sortdb.get_block_snapshot_consensus tt.parent_consensus_hash =
      some psn)
    (h6 : sortdb.get_block_snapshot_by_height sort_tip.sortition_id
      tsn.block_height = some asn)
    (h7 : asn.sortition_id = tsn.sortition_id)
    (h8 : sortdb.get_block_snapshot_by_height sort_tip.sortition_id
      psn.block_height = some apsn)
    (h9 : apsn.sortition_id = psn.sortition_id)
    (h10 : psn.block_height < tsn.block_height)
    (h11 : tsn.winning_stacks_block_hash = tt.parent_tenure_start_block_id)
    (h12 : chainstate.get_nakamoto_block hid = some hb)
    (h13 : tt.tip_block_id = hid ∨ hb.header.chain_length > tt.tip_height)
    (h14 : chainstate.get_nakamoto_block tt.tenure_start_block_id =
      some usb) :
    dl.try_accept_tenure_info sortdb sort_tip chainstate tt aggk =
      ({ dl with
          highest_processed_block_height := some hb.header.chain_length
          unconfirmed_tenure_start_block := some usb
          state := .Done
          tenure_tip := some tt }, .ok ()) := by
  unfold NakamotoUnconfirmedTenureDownloader.try_accept_tenure_info
  rw [if_neg (by simp [h1]), if_neg (by simp [h2]), h4, h5]
  dsimp only
  rw [h6]
  dsimp only
  rw [if_neg (by simp [h7]), h8]
  dsimp only
  rw [if_neg (by simp [h9]), if_neg (by omega), if_neg (by simp [h11])]
  unfold NakamotoUnconfirmedTenureDownloader.tryAcceptTenureInfoTail
  rw [h3]
  dsimp only
  rw [h12]
  dsimp only
  rw [if_pos h13, h14]
  dsimp only
  rw [if_neg (by simp)]

/-- Witness for C7 at a concrete environment: the local highest processed
block is at height 35, ahead of the remote tip height 30. -/
theorem try_accept_tenure_info_early_out_witness :
    dlW7.state = .GetTenureInfo ∧
    dlW7.highest_processed_block_id = some 600 ∧
    (ttW.tip_block_id = 600 ∨ hbW.header.chain_length > ttW.tip_height) ∧
    dlW7.try_accept_tenure_info sortdbW sortTipW chainstateW ttW
      (fun _ => some (some 42)) =
      ({ dlW7 with
          highest_processed_block_height := some 35
          unconfirmed_tenure_start_block := some usbW
          state := .Done
          tenure_tip := some ttW }, .ok ()) := by
  refine ⟨rfl, rfl, Or.inr (by decide), ?_⟩
  have h := try_accept_tenure_info_early_out dlW7 sortdbW sortTipW
    chainstateW ttW (fun _ => some (some 42)) 600 hbW usbW tsnW psnW tsnW
    psnW rfl rfl rfl rfl rfl rfl rfl rfl rfl (by decide) rfl rfl
    (Or.inr (by decide)) rfl
  exact h

/-- C6: in `TenureStartEnd::from_inventory` with next-cycle wanted tenures,
(a) every `TenureStartEnd` produced by the second phase — whose end block is
found by crossing into `next_wanted_tenures` — carries
`fetch_end_block = true`, and (b) the entry for the last tenure derived
purely from `wanted_tenures` (the final `last_tenure_ch`) also has
`fetch_end_block = true` in the returned map. -/
theorem from_inventory_fetch_end_block (rc : Nat)
    (wanted nwt : List WantedTenure) (bh_to_rc : Nat → Nat)
    (invs : NakamotoTenureInv) (invbits : List Bool)
    (hinv : invs.tenures_inv rc = some invbits) :
    (∀ nbits, invs.tenures_inv (rc + 1) = some nbits →
      ∀ p ∈ fromInvPhase2 wanted nwt invbits nbits rc bh_to_rc
        (wanted.length + 1)
        (fromInvPhase1 wanted invbits rc (wanted.length + 1) 0 0 [] none).2.1
        0 false [],
        p.2.fetch_end_block = true) ∧
    (∀ ch m tse,
      (fromInvPhase1 wanted invbits rc (wanted.length + 1) 0 0 [] none).2.2 =
        some ch →
      TenureStartEnd.from_inventory rc wanted (some nwt) bh_to_rc invs =
        some m →
      atLookup m ch = some tse → tse.fetch_end_block = true) := by
  constructor
  · intro nbits _ p hp
    rcases fromInvPhase2_mem wanted nwt invbits nbits rc bh_to_rc _ _ _ _ _
      p hp with hin | ht
    · cases hin
    · exact ht
  · intro ch m tse hch hm hlk
    unfold TenureStartEnd.from_inventory at hm
    rw [hinv] at hm
    dsimp only at hm
    rcases hP : fromInvPhase1 wanted invbits rc (wanted.length + 1) 0 0 []
      none with ⟨m1, lt, lch⟩
    rw [hP] at hm hch
    dsimp only at hm hch
    subst hch
    dsimp only at hm
    cases hnb : invs.tenures_inv (rc + 1) with
    | none =>
      rw [hnb] at hm
      dsimp only at hm
      injection hm with hm
      rw [← hm] at hlk
      exact atLookup_atSetFetch m1 ch tse hlk
    | some nbits =>
      rw [hnb] at hm
      dsimp only at hm
      injection hm with hm
      rw [← hm] at hlk
      rcases atLookup_foldl_insert _ _ _ _ hlk with hmem | hlk2
      · rcases fromInvPhase2_mem wanted nwt invbits nbits rc bh_to_rc _ _ _
          _ _ (ch, tse) hmem with hin | ht
        · cases hin
        · exact ht
      · exact atLookup_atSetFetch m1 ch tse hlk2

/-- Witness for C6 at a concrete three-tenure cycle followed by a one-tenure
next cycle. -/
theorem from_inventory_fetch_end_block_witness :
    invsW.tenures_inv 0 = some [true, true, true] ∧
    invsW.tenures_inv 1 = some [true] ∧
    (31, tse31W) ∈ fromInvPhase2 wantedW nwtW [true, true, true] [true] 0
      bh2rcW (wantedW.length + 1)
      (fromInvPhase1 wantedW [true, true, true] 0 (wantedW.length + 1) 0 0 []
        none).2.1 0 false [] ∧
    TenureStartEnd.from_inventory 0 wantedW (some nwtW) bh2rcW invsW =
      some mW ∧
    tse31W.fetch_end_block = true ∧ tse30W.fetch_end_block = true := by
  refine ⟨rfl, rfl, by decide, rfl, ?_, ?_⟩
  · exact (from_inventory_fetch_end_block 0 wantedW nwtW bh2rcW invsW
      [true, true, true] rfl).1 [true] rfl (31, tse31W) (by decide)
  · exact (from_inventory_fetch_end_block 0 wantedW nwtW bh2rcW invsW
      [true, true, true] rfl).2 30 mW tse30W (by decide) rfl (by decide)

/-- C8: in state `GetTenureBlocks`, `try_accept_tenure_blocks` on an empty
list returns `Ok(None)` and leaves the downloader completely unchanged. -/
theorem try_accept_tenure_blocks_empty (dl : NakamotoTenureDownloader)
    (cursor : Nat) (h : dl.state = .GetTenureBlocks cursor) :
    dl.try_accept_tenure_blocks [] = (dl, .ok none) := by
  unfold NakamotoTenureDownloader.try_accept_tenure_blocks
  rw [h]
  rfl

/-- Witness for C8 at a concrete downloader with one collected block. -/
theorem try_accept_tenure_blocks_empty_witness :
    dlW8.state = .GetTenureBlocks blkW1.block_id ∧
    dlW8.try_accept_tenure_blocks [] = (dlW8, .ok none) :=
  ⟨rfl, try_accept_tenure_blocks_empty dlW8 blkW1.block_id rfl⟩

/-- C9: `handle_next_download_response` marks the downloader idle before any
processing, so the machine is idle afterwards even when the response fails
to decode or validate. -/
theorem handle_next_download_response_idle (dl : NakamotoTenureDownloader)
    (resp : StacksHttpResponse) :
    (dl.handle_next_download_response resp).1.idle = true := by
  unfold NakamotoTenureDownloader.handle_next_download_response
  dsimp only
  repeat' split
  all_goals first
  | rfl
  | (rename_i heq
     have h2 := congrArg (fun p =>
       NakamotoTenureDownloader.idle (Prod.fst p)) heq
     first
     | simpa [try_accept_tenure_start_block_idle] using h2.symm
     | simpa [try_accept_tenure_end_block_idle] using h2.symm)
  | simp [try_accept_tenure_blocks_idle]

/-- C3 counterexample: when the network has no Nakamoto inventory state, the
top-level `run` propagates `PeerNotConnected` to the caller instead of
returning a block map, so an error other than transport exhaustion escapes
the tick. -/
theorem run_no_inventory_counterexample :
    NakamotoDownloadStateMachine.run envC3bad = .error .PeerNotConnected :=
  rfl

/-- C3 (amended): `run` propagates every error of `update_wanted_tenures`
(in particular `PeerNotConnected` when there is no inventory state) and of
`update_processed_tenures`; only when both succeed does it return the
(possibly empty) map of new blocks, and `run_downloads` itself contributes
no error. -/
theorem run_error_propagation (env : DownloadRunEnv) :
    (env.inv_state_present = false →
      NakamotoDownloadStateMachine.run env = .error .PeerNotConnected) ∧
    (∀ e, update_wanted_tenures env = .error e →
      NakamotoDownloadStateMachine.run env = .error e) ∧
    (∀ e, update_wanted_tenures env = .ok () →
      env.processed_update = .error e →
      NakamotoDownloadStateMachine.run env = .error e) ∧
    (update_wanted_tenures env = .ok () → env.processed_update = .ok () →
      NakamotoDownloadStateMachine.run env = .ok env.downloads) := by
  unfold NakamotoDownloadStateMachine.run
  refine ⟨?_, ?_, ?_, ?_⟩
  · intro h
    simp [update_wanted_tenures, h, Bind.bind, Except.bind]
  · intro e h
    simp [h, Bind.bind, Except.bind]
  · intro e h1 h2
    simp [h1, h2, Bind.bind, Except.bind]
  · intro h1 h2
    simp [h1, h2, Bind.bind, Except.bind, Pure.pure, Except.pure]

/-- Witness for C3 (amended) at a concrete environment with succeeding
updates. -/
theorem run_error_propagation_witness :
    update_wanted_tenures envC3ok = .ok () ∧
    envC3ok.processed_update = .ok () ∧
    NakamotoDownloadStateMachine.run envC3ok = .ok [(10, [blkW1])] :=
  ⟨rfl, rfl, (run_error_propagation envC3ok).2.2.2 rfl rfl⟩

/-- C5: a confirmed downloader in `WaitForTenureEndBlock` never emits an
HTTP request: `make_next_download_request` returns no request and
`send_next_download_request` hands nothing to the peer and leaves the
downloader unchanged. -/
theorem wait_for_end_no_request (dl : NakamotoTenureDownloader)
    (eid ph : Nat) (env : NeighborRPCEnv)
    (h : dl.state = .WaitForTenureEndBlock eid) :
    dl.make_next_download_request ph = .ok none ∧
    (dl.send_next_download_request env).2.2 = none ∧
    (dl.send_next_download_request env).1 = dl := by
  have hm : ∀ p, dl.make_next_download_request p = .ok none := by
    intro p
    unfold NakamotoTenureDownloader.make_next_download_request
    rw [h]
  refine ⟨hm ph, ?_, ?_⟩ <;>
  · unfold NakamotoTenureDownloader.send_next_download_request
    split_ifs <;> try rfl
    cases henv : env.peer_host with
    | none => rfl
    | some p => simp [hm]

/-- Witness for C5 at a concrete waiting downloader and live peer. -/
theorem wait_for_end_no_request_witness :
    dlW4.state = .WaitForTenureEndBlock blkW4end.block_id ∧
    (dlW4.make_next_download_request 9 = .ok none ∧
      (dlW4.send_next_download_request envW5).2.2 = none ∧
      (dlW4.send_next_download_request envW5).1 = dlW4) :=
  ⟨rfl, wait_for_end_no_request dlW4 blkW4end.block_id 9 envW5 rfl⟩

end Stacks
